import Mathlib

/-!
Verification development for the verified-frame-encoder batch job
(encode_timelapse.py).

The script is embedded shallowly:
* filenames are lists of characters, compared lexicographically by code
  point exactly as Python compares the path strings;
* every external effect (directory listing, subprocess outcomes, rename,
  per-file unlink) is an explicit input to the embedded function, and the
  job body is a pure function from those inputs to an observable outcome
  record (exit status, encoded batch, concat list, published artifact,
  deleted files, temporary-file state).
-/

namespace EncodeTimelapse

/-- A filename, as the sequence of its characters. -/
abbrev FileName := List Char

/-- Lexicographic order on filenames by code point: the order Python uses
when sorted() compares the frame paths of one directory. -/
def lexLe : FileName → FileName → Bool
  | [], _ => true
  | _ :: _, [] => false
  | a :: as, b :: bs => if a < b then true else if b < a then false else lexLe as bs

/-- Propositional form of lexLe. -/
def fnLe (a b : FileName) : Prop := lexLe a b = true

instance : DecidableRel fnLe := fun a b => inferInstanceAs (Decidable (lexLe a b = true))

theorem lexLe_total (a b : FileName) : lexLe a b || lexLe b a := by
  induction a generalizing b with
  | nil => simp [lexLe]
  | cons x xs ih =>
    cases b with
    | nil => simp [lexLe]
    | cons y ys =>
      simp only [lexLe]
      rcases lt_trichotomy x y with h | h | h
      · simp [h]
      · subst h
        simpa [lt_irrefl] using ih ys
      · simp [h, not_lt_of_gt h]

theorem lexLe_trans (a b c : FileName) (hab : lexLe a b) (hbc : lexLe b c) :
    lexLe a c := by
  induction a generalizing b c with
  | nil => simp [lexLe]
  | cons x xs ih =>
    cases b with
    | nil => simp [lexLe] at hab
    | cons y ys =>
      cases c with
      | nil => simp [lexLe] at hbc
      | cons z zs =>
        simp only [lexLe] at hab hbc ⊢
        rcases lt_trichotomy x y with h1 | h1 | h1
        · rcases lt_trichotomy y z with h2 | h2 | h2
          · simp [h1.trans h2]
          · subst h2
            simp [h1]
          · simp [h2, not_lt_of_gt h2] at hbc
        · subst h1
          rcases lt_trichotomy x z with h2 | h2 | h2
          · simp [h2]
          · subst h2
            simp only [lt_irrefl, if_false] at hab hbc ⊢
            exact ih ys zs hab hbc
          · simp [h2, not_lt_of_gt h2] at hbc
        · simp [h1, not_lt_of_gt h1] at hab

instance : IsTrans FileName fnLe :=
  ⟨fun a b c hab hbc => lexLe_trans a b c hab hbc⟩

instance : IsTotal FileName fnLe := by
  refine ⟨fun a b => ?_⟩
  have h := lexLe_total a b
  rcases Bool.or_eq_true_iff.mp h with h1 | h1
  · exact Or.inl h1
  · exact Or.inr h1

/-- The glob pattern frame_*.jpg of get_sorted_frames: the name starts
with frame_ and ends with .jpg (the star matches any run of characters,
possibly empty). -/
def matchesPattern (s : FileName) : Bool :=
  "frame_".data.isPrefixOf s && ".jpg".data.isSuffixOf s

/-- get_sorted_frames: list the directory entries matching frame_*.jpg and
sort them ascending by name (oldest first). Python sorted() is a stable
total sort by lexicographic path order; it is modelled by insertion sort
over the same order. -/
def get_sorted_frames (listing : List FileName) : List FileName :=
  List.insertionSort fnLe (listing.filter matchesPattern)

/-- Path.stem of a filename: the name with its final dot-extension
removed; a dotless name, or a name whose only dot is its first character,
is its own stem. -/
def stem (f : FileName) : FileName :=
  let extLen := (f.reverse.takeWhile (fun c => c != '.')).length
  if extLen = f.length then f
  else if extLen + 1 = f.length then f
  else f.take (f.length - extLen - 1)

/-- The final video name: timelapse_ plus the stem of the first frame of
the batch plus .mp4. -/
def outputFileName (firstFrame : FileName) : FileName :=
  "timelapse_".data ++ stem firstFrame ++ ".mp4".data

/-- The single-quote character used by the ffmpeg concat line format. -/
def quoteChar : Char := Char.ofNat 39

/-- The concat-list line written for one frame: the word file, a space,
and the frame path wrapped in single quotes. Paths are modelled by their
final filename component (all frames live in the one input directory). -/
def concatLine (frame : FileName) : FileName :=
  ("file ".data ++ [quoteChar]) ++ frame ++ [quoteChar]

/-- Outcome of one subprocess.run call made without check=True: either the
timeout expired (an exception), or the tool finished with an exit code and
captured error text. -/
inductive ProcResult where
  | timeout
  | done (returncode : Int) (stderr : List Char)
deriving DecidableEq

/-- Outcome of the ffprobe invocation plus the JSON field extraction in
verify_video: raised covers CalledProcessError (non-zero exit under
check=True) and TimeoutExpired; parseError covers JSONDecodeError,
KeyError and ValueError while reading nb_read_packets; count n is a
successfully parsed packet count. -/
inductive ProbeResult where
  | raised
  | parseError
  | count (n : Int)
deriving DecidableEq

/-- verify_video: succeed only when the probed packet count of the first
video stream equals the expected frame count and the full decode pass
finishes with exit code 0 and empty error output; every exceptional
outcome of either subprocess is caught and turned into failure. -/
def verify_video (probe : ProbeResult) (decodeRun : ProcResult)
    (expected_frames : Nat) : Bool :=
  match probe with
  | .raised => false
  | .parseError => false
  | .count actual_frames =>
    if actual_frames ≠ (expected_frames : Int) then false
    else
      match decodeRun with
      | .timeout => false
      | .done rc err => if rc ≠ 0 || err ≠ [] then false else true

/-- Observable result of encode_frames: whether it returned True, the
lines it wrote to the scratch concat file, and whether the finally block
removed that file. -/
structure EncodeRun where
  success : Bool
  concatLines : List FileName
  concatRemoved : Bool
deriving DecidableEq

/-- The finally block of encode_frames: unlink the concat file with
missing_ok, on whichever path control leaves the try statement. -/
def finallyCleanup (r : EncodeRun) : EncodeRun :=
  { r with concatRemoved := true }

/-- encode_frames: write one concat line per frame in list order, run the
ffmpeg concat encode, return False on a non-zero exit code or on a timeout
exception, True otherwise; the finally block removes the concat file on
each of the three exit paths. -/
def encode_frames (frames : List FileName) (ffmpegRun : ProcResult) : EncodeRun :=
  let lines := frames.map concatLine
  match ffmpegRun with
  | .timeout =>
    finallyCleanup { success := false, concatLines := lines, concatRemoved := false }
  | .done rc _ =>
    if rc ≠ 0 then
      finallyCleanup { success := false, concatLines := lines, concatRemoved := false }
    else
      finallyCleanup { success := true, concatLines := lines, concatRemoved := false }

/-- safe_delete_frames: try to unlink every frame in order, catching the
exception of each failed unlink and collecting the failures; returns the
frames actually deleted and the frames whose unlink failed, in attempt
order. unlinkFails is the set of frames whose unlink raises. -/
def safe_delete_frames (frames : List FileName) (unlinkFails : List FileName) :
    List FileName × List FileName :=
  match frames with
  | [] => ([], [])
  | f :: rest =>
    let r := safe_delete_frames rest unlinkFails
    if unlinkFails.contains f then (r.1, f :: r.2) else (f :: r.1, r.2)

/-- The command-line configuration of the job: the required frame count
(--frames, default 240) and the keep-frames testing flag. The framerate
and directory names do not affect the verified behaviour and are omitted. -/
structure Config where
  frames : Nat
  keep_frames : Bool
deriving DecidableEq

/-- The filesystem as the job observes and affects it: whether the input
directory exists, its entries, and the success of each filesystem effect
the job attempts. -/
structure FS where
  timelapseDirIsDir : Bool
  listing : List FileName
  mkdirOk : Bool
  tmpfileOk : Bool
  moveOk : Bool
  unlinkFails : List FileName
deriving DecidableEq

/-- Outcomes of the three external-tool invocations of one run. -/
structure Ext where
  encodeRun : ProcResult
  probe : ProbeResult
  decodeRun : ProcResult
deriving DecidableEq

/-- Everything observable about one run of main: the returned exit code
(none when an exception escapes main), the batch handed to encode_frames,
the concat lines written for it, whether the verified video was moved to
its final path and under which name, the frames deleted, the frames whose
deletion failed, and whether the temporary video file was created and
whether it still exists afterwards. -/
structure Outcome where
  exit : Option Nat
  batch : Option (List FileName)
  concatLines : Option (List FileName)
  published : Bool
  outputName : Option FileName
  deleted : List FileName
  deleteFailed : List FileName
  tmpCreated : Bool
  tmpLeft : Bool
deriving DecidableEq

/-- An outcome that touched nothing: no encode, no publish, no deletion,
no temporary file. -/
def noEffect (exitCode : Option Nat) : Outcome :=
  { exit := exitCode, batch := none, concatLines := none, published := false,
    outputName := none, deleted := [], deleteFailed := [], tmpCreated := false,
    tmpLeft := false }

/-- The body of the try block of main, entered after the temporary output
file has been created: encode to the temporary file, verify it, move it to
the final path, then delete the consumed frames unless keep_frames is set.
Each failure returns 1 from inside the try block (a raised move error is
caught by the except clause); the finally block removes the temporary file
with missing_ok on every path. -/
def encodePhase (cfg : Config) (fs : FS) (ext : Ext)
    (frames_to_encode : List FileName) (firstFrame : FileName) : Outcome :=
  if (encode_frames frames_to_encode ext.encodeRun).success = false then
    { exit := some 1, batch := some frames_to_encode,
      concatLines := some (encode_frames frames_to_encode ext.encodeRun).concatLines,
      published := false, outputName := none, deleted := [], deleteFailed := [],
      tmpCreated := true, tmpLeft := false }
  else if verify_video ext.probe ext.decodeRun frames_to_encode.length = false then
    { exit := some 1, batch := some frames_to_encode,
      concatLines := some (encode_frames frames_to_encode ext.encodeRun).concatLines,
      published := false, outputName := none, deleted := [], deleteFailed := [],
      tmpCreated := true, tmpLeft := false }
  else if fs.moveOk = false then
    { exit := some 1, batch := some frames_to_encode,
      concatLines := some (encode_frames frames_to_encode ext.encodeRun).concatLines,
      published := false, outputName := none, deleted := [], deleteFailed := [],
      tmpCreated := true, tmpLeft := false }
  else if cfg.keep_frames then
    { exit := some 0, batch := some frames_to_encode,
      concatLines := some (encode_frames frames_to_encode ext.encodeRun).concatLines,
      published := true, outputName := some (outputFileName firstFrame), deleted := [],
      deleteFailed := [], tmpCreated := true, tmpLeft := false }
  else
    { exit := some 0, batch := some frames_to_encode,
      concatLines := some (encode_frames frames_to_encode ext.encodeRun).concatLines,
      published := true, outputName := some (outputFileName firstFrame),
      deleted := (safe_delete_frames frames_to_encode fs.unlinkFails).1,
      deleteFailed := (safe_delete_frames frames_to_encode fs.unlinkFails).2,
      tmpCreated := true, tmpLeft := false }

/-- main: reject a missing input directory with exit 1; list and sort the
matching frames; return 0 untouched when fewer than the required count
exist; otherwise take all the listed frames as the batch, log the first
and last frame names (indexing the first frame of an empty batch raises
an uncaught IndexError), create the output directory and the temporary
output file (both outside the try block, so their errors propagate), and
run the guarded encode-verify-publish-delete phase. -/
def runMain (cfg : Config) (fs : FS) (ext : Ext) : Outcome :=
  if fs.timelapseDirIsDir = false then
    noEffect (some 1)
  else if (get_sorted_frames fs.listing).length < cfg.frames then
    noEffect (some 0)
  else
    match get_sorted_frames fs.listing with
    | [] => noEffect none
    | firstFrame :: rest =>
      if fs.mkdirOk = false then noEffect none
      else if fs.tmpfileOk = false then noEffect none
      else encodePhase cfg fs ext (firstFrame :: rest) firstFrame

/-! Helper lemmas shared by the claim theorems. -/

theorem encode_frames_concatLines (frames : List FileName) (r : ProcResult) :
    (encode_frames frames r).concatLines = frames.map concatLine := by
  cases r with
  | timeout => rfl
  | done rc err =>
    simp only [encode_frames, finallyCleanup]
    split <;> rfl

theorem safe_delete_frames_eq (frames unlinkFails : List FileName) :
    safe_delete_frames frames unlinkFails =
      (frames.filter (fun f => !(unlinkFails.contains f)),
       frames.filter (fun f => unlinkFails.contains f)) := by
  induction frames with
  | nil => rfl
  | cons f rest ih =>
    simp only [safe_delete_frames, ih]
    by_cases h : f ∈ unlinkFails
    · simp [h, List.filter_cons]
    · simp [h, List.filter_cons]

theorem sorted_get_sorted_frames (listing : List FileName) :
    List.Sorted fnLe (get_sorted_frames listing) := by
  unfold get_sorted_frames
  exact List.sorted_insertionSort fnLe _

theorem mem_get_sorted_frames {listing : List FileName} {f : FileName} :
    f ∈ get_sorted_frames listing ↔ f ∈ listing ∧ matchesPattern f = true := by
  unfold get_sorted_frames
  rw [(List.perm_insertionSort fnLe _).mem_iff, List.mem_filter]

theorem concatLine_inj {a b : FileName} (h : concatLine a = concatLine b) : a = b := by
  unfold concatLine at h
  exact List.append_cancel_left (List.append_cancel_right h)

theorem encodePhase_batch (cfg : Config) (fs : FS) (ext : Ext)
    (fr : List FileName) (firstFrame : FileName) :
    (encodePhase cfg fs ext fr firstFrame).batch = some fr := by
  unfold encodePhase
  split
  · rfl
  · split
    · rfl
    · split
      · rfl
      · split <;> rfl

theorem encodePhase_concatLines (cfg : Config) (fs : FS) (ext : Ext)
    (fr : List FileName) (firstFrame : FileName) :
    (encodePhase cfg fs ext fr firstFrame).concatLines = some (fr.map concatLine) := by
  unfold encodePhase
  simp only [encode_frames_concatLines]
  split
  · rfl
  · split
    · rfl
    · split
      · rfl
      · split <;> rfl

theorem encodePhase_deleted (cfg : Config) (fs : FS) (ext : Ext)
    (fr : List FileName) (firstFrame : FileName) :
    (encodePhase cfg fs ext fr firstFrame).deleted = [] ∨
      ((encodePhase cfg fs ext fr firstFrame).deleted
          = fr.filter (fun f => !(fs.unlinkFails.contains f)) ∧
        (encodePhase cfg fs ext fr firstFrame).published = true) := by
  unfold encodePhase
  split
  · exact Or.inl rfl
  · split
    · exact Or.inl rfl
    · split
      · exact Or.inl rfl
      · split
        · exact Or.inl rfl
        · exact Or.inr ⟨by simp [safe_delete_frames_eq], rfl⟩

theorem encodePhase_exit (cfg : Config) (fs : FS) (ext : Ext)
    (fr : List FileName) (firstFrame : FileName) :
    (encodePhase cfg fs ext fr firstFrame).exit = some 1 ∨
      (encodePhase cfg fs ext fr firstFrame).exit = some 0 := by
  unfold encodePhase
  split
  · exact Or.inl rfl
  · split
    · exact Or.inl rfl
    · split
      · exact Or.inl rfl
      · split
        · exact Or.inr rfl
        · exact Or.inr rfl

theorem encodePhase_fail (cfg : Config) (fs : FS) (ext : Ext)
    (fr : List FileName) (firstFrame : FileName)
    (hfail : (encode_frames fr ext.encodeRun).success = false ∨
      verify_video ext.probe ext.decodeRun fr.length = false) :
    encodePhase cfg fs ext fr firstFrame =
      { exit := some 1, batch := some fr, concatLines := some (fr.map concatLine),
        published := false, outputName := none, deleted := [], deleteFailed := [],
        tmpCreated := true, tmpLeft := false } := by
  unfold encodePhase
  rcases hfail with h | h
  · simp [h, encode_frames_concatLines]
  · by_cases he : (encode_frames fr ext.encodeRun).success = false
    · simp [he, encode_frames_concatLines]
    · simp [he, h, encode_frames_concatLines]

theorem runMain_shape (cfg : Config) (fs : FS) (ext : Ext) :
    ((runMain cfg fs ext).batch = none ∨
      (runMain cfg fs ext).batch = some (get_sorted_frames fs.listing)) ∧
    ((runMain cfg fs ext).concatLines = none ∨
      (runMain cfg fs ext).concatLines
        = some ((get_sorted_frames fs.listing).map concatLine)) ∧
    ((runMain cfg fs ext).deleted = [] ∨
      ((runMain cfg fs ext).deleted
          = (get_sorted_frames fs.listing).filter (fun g => !(fs.unlinkFails.contains g)) ∧
        (runMain cfg fs ext).published = true)) := by
  unfold runMain
  split
  · exact ⟨Or.inl rfl, Or.inl rfl, Or.inl rfl⟩
  · split
    · exact ⟨Or.inl rfl, Or.inl rfl, Or.inl rfl⟩
    · split
      · exact ⟨Or.inl rfl, Or.inl rfl, Or.inl rfl⟩
      · rename_i firstFrame rest heq
        split
        · exact ⟨Or.inl rfl, Or.inl rfl, Or.inl rfl⟩
        · split
          · exact ⟨Or.inl rfl, Or.inl rfl, Or.inl rfl⟩
          · refine ⟨Or.inr ?_, Or.inr ?_, ?_⟩
            · rw [encodePhase_batch, heq]
            · rw [encodePhase_concatLines, heq]
            · rcases encodePhase_deleted cfg fs ext (firstFrame :: rest) firstFrame with h | h
              · exact Or.inl h
              · exact Or.inr ⟨by rw [h.1, heq], h.2⟩

/-- C3: verify_video is fail-closed: it returns success exactly when the
probed packet count of the primary video stream equals the expected frame
count and the full decode pass finishes with exit status 0 and empty
error output; a raised probe call, unparseable or field-missing probe
metadata, a probe-count mismatch, a decode timeout, a non-zero decode
exit, or non-empty decode error output each yield failure. -/
theorem C3_verify_video_fail_closed (probe : ProbeResult) (decodeRun : ProcResult)
    (expected_frames : Nat) :
    verify_video probe decodeRun expected_frames = true ↔
      probe = ProbeResult.count (expected_frames : Int) ∧
        decodeRun = ProcResult.done 0 [] := by
  cases probe with
  | raised => simp [verify_video]
  | parseError => simp [verify_video]
  | count n =>
    cases decodeRun with
    | timeout => simp [verify_video]
    | done rc err =>
      by_cases hn : n = (expected_frames : Int)
      · subst hn
        by_cases hrc : rc = 0
        · subst hrc
          by_cases herr : err = ([] : List Char)
          · subst herr
            simp [verify_video]
          · simp [verify_video, herr]
        · simp [verify_video, hrc]
      · simp [verify_video, hn]

/-- C6: the concat list given to the encoder corresponds 1:1, in order, to
the batch: at every index the line is exactly the concat entry of the
frame at that index (and both sides are none beyond the batch length, so
nothing is reordered, duplicated, or dropped), and the batch produced by
get_sorted_frames is in ascending lexical order. -/
theorem C6_concat_list_order (listing : List FileName) (r : ProcResult) :
    List.Sorted fnLe (get_sorted_frames listing) ∧
      ∀ i : Nat,
        (encode_frames (get_sorted_frames listing) r).concatLines[i]?
          = ((get_sorted_frames listing)[i]?).map concatLine := by
  refine ⟨sorted_get_sorted_frames listing, fun i => ?_⟩
  rw [encode_frames_concatLines, List.getElem?_map]

/-- C7: on each exit path of the ffmpeg invocation in encode_frames — a
successful encode, a non-zero tool exit, or a timeout exception — the
finally block removes the scratch concat-list file before returning. -/
theorem C7_concat_file_always_removed (frames : List FileName) (r : ProcResult) :
    (encode_frames frames r).concatRemoved = true := by
  cases r with
  | timeout => rfl
  | done rc err =>
    simp only [encode_frames, finallyCleanup]
    split <;> rfl

theorem encodePhase_success_delete (cfg : Config) (fs : FS) (ext : Ext)
    (fr : List FileName) (firstFrame : FileName)
    (henc : (encode_frames fr ext.encodeRun).success = true)
    (hver : verify_video ext.probe ext.decodeRun fr.length = true)
    (hmv : fs.moveOk = true) (hkeep : cfg.keep_frames = false) :
    encodePhase cfg fs ext fr firstFrame =
      { exit := some 0, batch := some fr, concatLines := some (fr.map concatLine),
        published := true, outputName := some (outputFileName firstFrame),
        deleted := fr.filter (fun f => !(fs.unlinkFails.contains f)),
        deleteFailed := fr.filter (fun f => fs.unlinkFails.contains f),
        tmpCreated := true, tmpLeft := false } := by
  unfold encodePhase
  simp [henc, hver, hmv, hkeep, encode_frames_concatLines, safe_delete_frames_eq]

theorem runMain_guarded (cfg : Config) (fs : FS) (ext : Ext)
    (hdir : fs.timelapseDirIsDir = true)
    (hge : ¬ (get_sorted_frames fs.listing).length < cfg.frames)
    (firstFrame : FileName) (rest : List FileName)
    (heq : get_sorted_frames fs.listing = firstFrame :: rest)
    (hmk : fs.mkdirOk = true) (htmp : fs.tmpfileOk = true) :
    runMain cfg fs ext = encodePhase cfg fs ext (firstFrame :: rest) firstFrame := by
  unfold runMain
  rw [heq] at hge ⊢
  rw [hdir]
  simp only [List.length_cons] at hge
  simp [hge, hmk, htmp]

theorem exists_cons_of_ne_nil {l : List FileName} (h : l ≠ []) :
    ∃ a t, l = a :: t := by
  cases l with
  | nil => exact absurd rfl h
  | cons a t => exact ⟨a, t, rfl⟩

/-! Concrete fixtures used by the evaluation theorem and the witnesses. -/

/-- A healthy filesystem: the input directory holds three matching frames
(listed out of order) and one non-matching file, and every filesystem
effect succeeds. -/
def fsOK : FS :=
  { timelapseDirIsDir := true,
    listing := ["frame_0002.jpg".data, "notes.txt".data, "frame_0001.jpg".data,
                "frame_0003.jpg".data],
    mkdirOk := true, tmpfileOk := true, moveOk := true, unlinkFails := [] }

/-- External tools all succeed and the probe reports three packets. -/
def extOK3 : Ext :=
  { encodeRun := .done 0 [], probe := .count 3, decodeRun := .done 0 [] }

/-- The ffmpeg encode exits with status 1. -/
def extEncFail : Ext :=
  { encodeRun := .done 1 "err".data, probe := .count 3, decodeRun := .done 0 [] }

/-- Like fsOK but the unlink of the second frame fails. -/
def fsDelFail : FS :=
  { timelapseDirIsDir := true,
    listing := ["frame_0001.jpg".data, "frame_0002.jpg".data, "frame_0003.jpg".data],
    mkdirOk := true, tmpfileOk := true, moveOk := true,
    unlinkFails := ["frame_0002.jpg".data] }

/-- A required frame count of zero. -/
def cfgZero : Config := { frames := 0, keep_frames := false }

/-- An existing but empty input directory, all effects fine. -/
def fsEmpty : FS :=
  { timelapseDirIsDir := true, listing := [], mkdirOk := true, tmpfileOk := true,
    moveOk := true, unlinkFails := [] }

/-- C1: evaluation of the job at its failing input: the input directory
holds three matching frames and the required count is two, every external
step succeeds, yet the batch handed to the encoder is all three frames and
all three are deleted — not the two lexicographically smallest with the
third left for a future run, as the claim (and the script docstring,
which promises that exactly the configured number of frames is encoded)
states. The selection step assigns the whole sorted listing to the batch
instead of its first N entries. -/
theorem C1_code_encodes_all_frames :
    (runMain { frames := 2, keep_frames := false } fsOK extOK3).batch
        = some ["frame_0001.jpg".data, "frame_0002.jpg".data, "frame_0003.jpg".data] ∧
    (runMain { frames := 2, keep_frames := false } fsOK extOK3).deleted
        = ["frame_0001.jpg".data, "frame_0002.jpg".data, "frame_0003.jpg".data] := by
  decide

/-- C2: whenever the input directory exists and holds fewer matching
frames than the required count, the run returns exit status 0 and is a
complete no-op: no batch is handed to the encoder, no concat list is
written, nothing is published, no temporary video is created, and no file
is deleted. -/
theorem C2_insufficient_frames_noop (cfg : Config) (fs : FS) (ext : Ext)
    (hdir : fs.timelapseDirIsDir = true)
    (hlt : (get_sorted_frames fs.listing).length < cfg.frames) :
    (runMain cfg fs ext).exit = some 0 ∧
    (runMain cfg fs ext).batch = none ∧
    (runMain cfg fs ext).concatLines = none ∧
    (runMain cfg fs ext).published = false ∧
    (runMain cfg fs ext).outputName = none ∧
    (runMain cfg fs ext).deleted = [] ∧
    (runMain cfg fs ext).tmpCreated = false := by
  unfold runMain
  rw [hdir]
  simp [hlt, noEffect]

theorem C2_witness :
    fsOK.timelapseDirIsDir = true ∧
    (get_sorted_frames fsOK.listing).length < 240 ∧
    (runMain { frames := 240, keep_frames := false } fsOK extOK3).exit = some 0 ∧
    (runMain { frames := 240, keep_frames := false } fsOK extOK3).deleted = [] := by
  have h := C2_insufficient_frames_noop { frames := 240, keep_frames := false }
    fsOK extOK3 rfl (by decide)
  exact ⟨rfl, by decide, h.1, h.2.2.2.2.2.1⟩

/-- C4: on every run, if any frame was deleted then the verified video had
already been moved successfully to its final output path in that same
run. -/
theorem C4_delete_only_after_publish (cfg : Config) (fs : FS) (ext : Ext)
    (h : (runMain cfg fs ext).deleted ≠ []) :
    (runMain cfg fs ext).published = true := by
  rcases (runMain_shape cfg fs ext).2.2 with h0 | h0
  · exact absurd h0 h
  · exact h0.2

theorem C4_witness :
    (runMain { frames := 3, keep_frames := false } fsOK extOK3).deleted ≠ [] ∧
    (runMain { frames := 3, keep_frames := false } fsOK extOK3).published = true :=
  ⟨by decide,
    C4_delete_only_after_publish { frames := 3, keep_frames := false } fsOK extOK3
      (by decide)⟩

/-- C5: when the run reaches the guarded phase and the encode fails or the
verification fails, the job is atomic: it returns exit status 1, nothing
is published at the final output path, no source frame is deleted, and
the temporary in-flight video that was created no longer exists
afterwards. -/
theorem C5_failure_is_atomic (cfg : Config) (fs : FS) (ext : Ext)
    (hdir : fs.timelapseDirIsDir = true)
    (hge : ¬ (get_sorted_frames fs.listing).length < cfg.frames)
    (hne : get_sorted_frames fs.listing ≠ [])
    (hmk : fs.mkdirOk = true)
    (htmp : fs.tmpfileOk = true)
    (hfail : (encode_frames (get_sorted_frames fs.listing) ext.encodeRun).success = false ∨
      verify_video ext.probe ext.decodeRun (get_sorted_frames fs.listing).length = false) :
    (runMain cfg fs ext).exit = some 1 ∧
    (runMain cfg fs ext).published = false ∧
    (runMain cfg fs ext).outputName = none ∧
    (runMain cfg fs ext).deleted = [] ∧
    (runMain cfg fs ext).tmpCreated = true ∧
    (runMain cfg fs ext).tmpLeft = false := by
  obtain ⟨firstFrame, rest, heq⟩ := exists_cons_of_ne_nil hne
  rw [runMain_guarded cfg fs ext hdir hge firstFrame rest heq hmk htmp,
    encodePhase_fail cfg fs ext (firstFrame :: rest) firstFrame
      (by rw [← heq]; exact hfail)]
  exact ⟨rfl, rfl, rfl, rfl, rfl, rfl⟩

theorem C5_witness :
    ((encode_frames (get_sorted_frames fsOK.listing) extEncFail.encodeRun).success = false ∨
      verify_video extEncFail.probe extEncFail.decodeRun
        (get_sorted_frames fsOK.listing).length = false) ∧
    (runMain { frames := 3, keep_frames := false } fsOK extEncFail).exit = some 1 ∧
    (runMain { frames := 3, keep_frames := false } fsOK extEncFail).published = false ∧
    (runMain { frames := 3, keep_frames := false } fsOK extEncFail).deleted = [] := by
  have h := C5_failure_is_atomic { frames := 3, keep_frames := false } fsOK extEncFail
    rfl (by decide) (by decide) rfl rfl (Or.inl (by decide))
  exact ⟨Or.inl (by decide), h.1, h.2.1, h.2.2.2.1⟩

/-- C8: after a successful publish with frame deletion enabled, deletion
is best-effort and non-fatal: every frame of the batch ends in exactly one
of the deleted or failed lists according only to its own unlink outcome
(so one failure never prevents the attempts on the remaining frames),
failures are collected rather than raised, the job still returns exit
status 0, and the published video stays in place. -/
theorem C8_best_effort_deletion (cfg : Config) (fs : FS) (ext : Ext)
    (hdir : fs.timelapseDirIsDir = true)
    (hge : ¬ (get_sorted_frames fs.listing).length < cfg.frames)
    (hne : get_sorted_frames fs.listing ≠ [])
    (hmk : fs.mkdirOk = true)
    (htmp : fs.tmpfileOk = true)
    (henc : (encode_frames (get_sorted_frames fs.listing) ext.encodeRun).success = true)
    (hver : verify_video ext.probe ext.decodeRun
      (get_sorted_frames fs.listing).length = true)
    (hmv : fs.moveOk = true)
    (hkeep : cfg.keep_frames = false) :
    (runMain cfg fs ext).exit = some 0 ∧
    (runMain cfg fs ext).published = true ∧
    (runMain cfg fs ext).deleted
        = (get_sorted_frames fs.listing).filter (fun f => !(fs.unlinkFails.contains f)) ∧
    (runMain cfg fs ext).deleteFailed
        = (get_sorted_frames fs.listing).filter (fun f => fs.unlinkFails.contains f) := by
  obtain ⟨firstFrame, rest, heq⟩ := exists_cons_of_ne_nil hne
  rw [runMain_guarded cfg fs ext hdir hge firstFrame rest heq hmk htmp,
    encodePhase_success_delete cfg fs ext (firstFrame :: rest) firstFrame
      (by rw [← heq]; exact henc) (by rw [← heq]; exact hver) hmv hkeep]
  exact ⟨rfl, rfl, by rw [heq], by rw [heq]⟩

theorem C8_witness :
    (runMain { frames := 3, keep_frames := false } fsDelFail extOK3).exit = some 0 ∧
    (runMain { frames := 3, keep_frames := false } fsDelFail extOK3).published = true ∧
    (runMain { frames := 3, keep_frames := false } fsDelFail extOK3).deleted
        = ["frame_0001.jpg".data, "frame_0003.jpg".data] ∧
    (runMain { frames := 3, keep_frames := false } fsDelFail extOK3).deleteFailed
        = ["frame_0002.jpg".data] := by
  have h := C8_best_effort_deletion { frames := 3, keep_frames := false } fsDelFail extOK3
    rfl (by decide) (by decide) rfl rfl (by decide) (by decide) rfl rfl
  refine ⟨h.1, h.2.1, ?_, ?_⟩
  · rw [h.2.2.1]
    decide
  · rw [h.2.2.2]
    decide

/-- C9 counterexample: with a required frame count of zero and an empty
(existing) input directory, every external effect healthy, the run ends
with no returned exit status: indexing the first frame of the empty batch
for the log line raises an IndexError before the guarded block, and the
exception propagates past main — refuting the claim that the job always
terminates with a definite exit status for these inputs. -/
theorem C9_counterexample_zero_frames :
    (runMain cfgZero fsEmpty extOK3).exit = none := by decide

/-- C9 amended: the top-level job terminates with a definite exit status
and converts every external-tool and filesystem error inside the guarded
encode-verify-publish-delete phase into a step-level failure, provided
the required frame count is positive and the output-directory creation
and temporary-file creation (which run before the guarded block) do not
themselves fail; outside those provisos an exception escapes main. -/
theorem C9_amended_definite_exit (cfg : Config) (fs : FS) (ext : Ext)
    (hpos : 0 < cfg.frames) (hmk : fs.mkdirOk = true) (htmp : fs.tmpfileOk = true) :
    (runMain cfg fs ext).exit ≠ none := by
  by_cases hdir : fs.timelapseDirIsDir = false
  · unfold runMain
    simp [hdir, noEffect]
  · have hdir2 : fs.timelapseDirIsDir = true := by
      cases hb : fs.timelapseDirIsDir
      · exact absurd hb hdir
      · rfl
    by_cases hlt : (get_sorted_frames fs.listing).length < cfg.frames
    · unfold runMain
      simp [hdir, hlt, noEffect]
    · have hne : get_sorted_frames fs.listing ≠ [] := by
        intro h
        rw [h] at hlt
        simp at hlt
        omega
      obtain ⟨firstFrame, rest, heq⟩ := exists_cons_of_ne_nil hne
      rw [runMain_guarded cfg fs ext hdir2 hlt firstFrame rest heq hmk htmp]
      rcases encodePhase_exit cfg fs ext (firstFrame :: rest) firstFrame with h | h <;>
        simp [h]

theorem C9_witness :
    0 < 240 ∧
    (runMain { frames := 240, keep_frames := false } fsOK extOK3).exit ≠ none :=
  ⟨by decide,
    C9_amended_definite_exit { frames := 240, keep_frames := false } fsOK extOK3
      (by decide) rfl rfl⟩

/-- C10: a file whose name does not match frame_*.jpg is never part of the
batch handed to the encoder, never contributes a line to the concat list,
and is never deleted, on any run of the job. -/
theorem C10_nonmatching_files_untouched (cfg : Config) (fs : FS) (ext : Ext)
    (f : FileName) (hf : matchesPattern f = false) :
    (∀ b, (runMain cfg fs ext).batch = some b → f ∉ b) ∧
    (∀ ls, (runMain cfg fs ext).concatLines = some ls → concatLine f ∉ ls) ∧
    f ∉ (runMain cfg fs ext).deleted := by
  have hmem : f ∉ get_sorted_frames fs.listing := by
    intro hin
    rcases mem_get_sorted_frames.mp hin with ⟨-, hmatch⟩
    rw [hf] at hmatch
    exact Bool.noConfusion hmatch
  obtain ⟨hb, hc, hd⟩ := runMain_shape cfg fs ext
  refine ⟨?_, ?_, ?_⟩
  · intro b hbatch
    rcases hb with h | h
    · rw [hbatch] at h
      cases h
    · rw [hbatch] at h
      injection h with h
      intro hin
      exact hmem (h ▸ hin)
  · intro ls hlines
    rcases hc with h | h
    · rw [hlines] at h
      cases h
    · rw [hlines] at h
      injection h with h
      intro hin
      rw [h] at hin
      rcases List.mem_map.mp hin with ⟨g, hg, hgl⟩
      exact hmem (concatLine_inj hgl ▸ hg)
  · rcases hd with h | h
    · rw [h]
      exact List.not_mem_nil f
    · rw [h.1]
      intro hin
      exact hmem (List.mem_filter.mp hin).1

theorem C10_witness :
    matchesPattern "notes.txt".data = false ∧
    "notes.txt".data ∉ (runMain { frames := 2, keep_frames := false } fsOK extOK3).deleted :=
  ⟨by decide,
    (C10_nonmatching_files_untouched { frames := 2, keep_frames := false } fsOK extOK3
      "notes.txt".data (by decide)).2.2⟩

end EncodeTimelapse
